import Mathlib

/-!
Shallow embedding of the booking core of server.py: the two in-memory
collections (clubs, competitions), the purchase_places operation, the
book eligibility check, and the canBeBooked derivation of show_summary.

Modelling conventions:
* Timestamps are integers; the only operation the code performs on dates
  is comparison, which the integer order mirrors.
* points and numberOfPlaces are stored as strings in the JSON source and
  parsed with int() on every use; the embedding keeps them as Int, which
  is the value every use sees.
* The clubBookings dict of a competition is lazily created; an absent
  key is modelled as none, a present dict as an association list that
  keeps the insertion order of the Python dict (new keys are appended).
* Session handling (Unauthorized) and form parsing are the external
  layer and are outside the modelled core: the operations receive an
  already-authenticated club identity and an already-parsed integer.
* The value a caller observes on failure records the exception class
  and message raised by the route, including the uncaught TypeError that
  the debug print statement on line 169 raises when the competition
  lookup returns None.
-/

namespace Booking

/-- A club record as used by server.py: name (identity key), login
email, and the points budget (parsed to an integer on every use). -/
structure Club where
  name : String
  email : String
  points : Int
deriving DecidableEq, Repr

/-- A competition record as used by server.py: name (identity key),
parsed date, remaining places, the lazily created clubBookings dict
(none while the key is absent), and the derived canBeBooked flag. -/
structure Competition where
  name : String
  date : Int
  numberOfPlaces : Int
  clubBookings : Option (List (String × Int))
  canBeBooked : Bool
deriving DecidableEq, Repr

/-- The two module-level collections of server.py. -/
structure AppState where
  clubs : List Club
  competitions : List Competition
deriving DecidableEq, Repr

/-- What a caller observes when a request fails: a BadRequest carrying
an explicit message, a bare BadRequest with the default description, or
an uncaught TypeError (HTTP 500). -/
inductive ErrorValue where
  | badRequestMsg (msg : String)
  | badRequestDefault
  | typeError
deriving DecidableEq, Repr

/-- Result of a request: success or one of the observable failures. -/
inductive Outcome where
  | success
  | failure (e : ErrorValue)
deriving DecidableEq, Repr

/-- Replace the first element satisfying p, mirroring the in-place
mutation of the single object that the Python code found by name. -/
def updateFirst (p : α → Bool) (f : α → α) : List α → List α
  | [] => []
  | x :: xs => if p x then f x :: xs else x :: updateFirst p f xs

/-- Dict read, first entry with the given key. -/
def lookupEntry (ledger : List (String × Int)) (k : String) : Option Int :=
  (ledger.find? (fun e => e.1 == k)).map (fun e => e.2)

/-- Dict increment on an existing key, mirroring d[k] += v. -/
def addEntry (ledger : List (String × Int)) (k : String) (v : Int) :
    List (String × Int) :=
  updateFirst (fun e => e.1 == k) (fun e => (e.1, e.2 + v)) ledger

/-- next((c for c in clubs if c[name] == club_name), None) -/
def findClub (st : AppState) (n : String) : Option Club :=
  st.clubs.find? (fun c => c.name == n)

/-- next((c for c in competitions if c[name] == competition_name), None) -/
def findCompetition (st : AppState) (n : String) : Option Competition :=
  st.competitions.find? (fun c => c.name == n)

/-- Lines 174 to 177 of server.py on the bookings value itself: create
the dict if absent and the club entry if absent, at value 0 (new dict
keys are appended, keeping insertion order). -/
def initBookings (b : List (String × Int)) (club_name : String) :
    List (String × Int) :=
  if (lookupEntry b club_name).isSome then b else b ++ [(club_name, 0)]

/-- The initialization-on-demand block of purchase_places applied to the
collections: the first competition with the given name gets its
clubBookings dict created and the club entry defaulted to 0. -/
def initLedger (st : AppState) (competition_name club_name : String) : AppState :=
  { st with
    competitions := updateFirst (fun c => c.name == competition_name)
      (fun c => { c with
        clubBookings := some (initBookings (c.clubBookings.getD []) club_name) })
      st.competitions }

/-- The prior cumulative booking of a club for a competition, as the
validation reads it after initialization (0 when no entry existed). -/
def priorBooking (c : Competition) (club_name : String) : Int :=
  (lookupEntry (c.clubBookings.getD []) club_name).getD 0

/-- Lines 188 to 191 of server.py, the three mutations of a successful
purchase applied to the post-initialization state: ledger entry +=
places, club points -= places, competition places -= places, each on
the first object with the matching name. -/
def applyPurchase (st : AppState) (competition_name club_name : String)
    (places_required : Int) : AppState :=
  { clubs := updateFirst (fun c => c.name == club_name)
      (fun c => { c with points := c.points - places_required })
      (initLedger st competition_name club_name).clubs,
    competitions := updateFirst (fun c => c.name == competition_name)
      (fun c => { c with
        clubBookings :=
          some (addEntry (c.clubBookings.getD []) club_name places_required),
        numberOfPlaces := c.numberOfPlaces - places_required })
      (initLedger st competition_name club_name).competitions }

/-- The purchase_places route of server.py (lines 158 to 203), for an
authenticated caller with an already-parsed integer place count.
Steps, in source order: resolve the competition, then the debug print
on line 169 dereferences it (uncaught TypeError when it is None);
resolve the club (BadRequest when None, caught and re-raised with the
message used on line 200); initialization-on-demand of the ledger
entry; the four-condition validation against pre-mutation values, any
violation raising the same BadRequest; on success the three mutations
of applyPurchase. -/
def purchase_places (st : AppState) (competition_name club_name : String)
    (places_required : Int) : Outcome × AppState :=
  match findCompetition st competition_name with
  | none => (.failure .typeError, st)
  | some competition =>
    match findClub st club_name with
    | none => (.failure (.badRequestMsg "Invalid data provided."), st)
    | some club =>
      if places_required > 12 ∨ places_required > club.points
          ∨ places_required > competition.numberOfPlaces
          ∨ priorBooking competition club_name + places_required > 12 then
        (.failure (.badRequestMsg "Invalid data provided."),
          initLedger st competition_name club_name)
      else
        (.success, applyPurchase st competition_name club_name places_required)

/-- The book route of server.py (lines 110 to 139) for an authenticated
caller: the club comprehension is indexed first, then the competition
one (IndexError on an absent name is caught and re-raised as BadRequest
with the message of line 139); a competition dated strictly before now
raises a bare BadRequest; otherwise the booking page renders.  The
route reads the collections and never writes them, so it returns only
the outcome. -/
def book (st : AppState) (competition club : String) (now : Int) : Outcome :=
  match findClub st club with
  | none => .failure (.badRequestMsg "Invalid data provided")
  | some _ =>
    match findCompetition st competition with
    | none => .failure (.badRequestMsg "Invalid data provided")
    | some comp =>
      if comp.date < now then .failure .badRequestDefault else .success

/-- Line 48 and line 104 of server.py: canBeBooked = (date >= now). -/
def canBeBooked (date now : Int) : Bool :=
  decide (date ≥ now)

/-- Lines 101 to 104 of show_summary: recompute canBeBooked for every
competition from the current time. -/
def refreshBookable (st : AppState) (now : Int) : AppState :=
  { st with
    competitions := st.competitions.map
      (fun c => { c with canBeBooked := canBeBooked c.date now }) }

/-- The points of the club with the given name, as an observable. -/
def clubPoints (st : AppState) (n : String) : Option Int :=
  (findClub st n).map (fun c => c.points)

/-- The remaining places of the competition with the given name. -/
def compPlaces (st : AppState) (n : String) : Option Int :=
  (findCompetition st n).map (fun c => c.numberOfPlaces)

/-- The cumulative booking of a club for a competition with the lazy
default of 0, as a third-party read of the ledger observes it. -/
def getLedgerD (st : AppState) (cn kn : String) : Int :=
  ((findCompetition st cn).map (fun c => priorBooking c kn)).getD 0

/-- One purchase request of a call sequence. -/
structure Call where
  competition : String
  club : String
  places : Int
deriving DecidableEq, Repr

/-- Run a sequence of purchase calls, threading the shared state. -/
def runCalls (st : AppState) : List Call → AppState
  | [] => st
  | c :: cs => runCalls (purchase_places st c.competition c.club c.places).2 cs

/-- Sum of the successfully applied place counts of the calls of a
sequence that target one (competition, club) pair. -/
def appliedSum (st : AppState) (cn kn : String) : List Call → Int
  | [] => 0
  | c :: cs =>
    (if (purchase_places st c.competition c.club c.places).1 = .success
        ∧ c.competition = cn ∧ c.club = kn then c.places else 0)
      + appliedSum (purchase_places st c.competition c.club c.places).2 cn kn cs

/-- The invariants of the data model: points and places are never
negative and every materialized ledger entry is at most 12. -/
def Inv (st : AppState) : Prop :=
  (∀ c ∈ st.clubs, 0 ≤ c.points) ∧
  ∀ c ∈ st.competitions, 0 ≤ c.numberOfPlaces ∧
    ∀ l, c.clubBookings = some l → ∀ e ∈ l, e.2 ≤ 12

/-- A freshly loaded state: non-negative points and places, and no
clubBookings dict yet (the loader does not create ledgers). -/
def Loaded (st : AppState) : Prop :=
  (∀ c ∈ st.clubs, 0 ≤ c.points) ∧
  ∀ c ∈ st.competitions, 0 ≤ c.numberOfPlaces ∧ c.clubBookings = none

/-! Concrete fixture states used to evaluate the theorems. -/

/-- A club with 13 points. -/
def clubA : Club := { name := "ClubA", email := "cluba@mail.com", points := 13 }

/-- A competition with 25 places and no ledger yet, dated 100. -/
def compX : Competition :=
  { name := "CompX", date := 100, numberOfPlaces := 25, clubBookings := none,
    canBeBooked := true }

/-- A freshly loaded one-club, one-competition state. -/
def stFresh : AppState := { clubs := [clubA], competitions := [compX] }

/-- A club with 15 points. -/
def clubB : Club := { name := "ClubA", email := "cluba@mail.com", points := 15 }

/-- A competition with 25 places whose ledger already records 5 places
for ClubA. -/
def compY : Competition :=
  { name := "CompX", date := 100, numberOfPlaces := 25,
    clubBookings := some [("ClubA", 5)], canBeBooked := true }

/-- A state in the middle of a booking history: ledger entry 5. -/
def stLedger : AppState := { clubs := [clubB], competitions := [compY] }

/-- A club with 0 points. -/
def clubZ : Club := { name := "ClubA", email := "cluba@mail.com", points := 0 }

/-- A competition with 0 places whose ledger for ClubA is already 13,
above the per-pair ceiling. -/
def compZ : Competition :=
  { name := "CompX", date := 100, numberOfPlaces := 0,
    clubBookings := some [("ClubA", 13)], canBeBooked := true }

/-- A state whose ledger entry exceeds the ceiling. -/
def stOver : AppState := { clubs := [clubZ], competitions := [compZ] }

/-- Three successive requests of 5 places by the same club for the same
competition; the third must fail against the cumulative ceiling. -/
def csBookings : List Call :=
  [{ competition := "CompX", club := "ClubA", places := 5 },
   { competition := "CompX", club := "ClubA", places := 5 },
   { competition := "CompX", club := "ClubA", places := 5 }]

/-! Basic lemmas about updateFirst and the dict operations. -/

theorem clubs_initLedger (st : AppState) (cn kn : String) :
    (initLedger st cn kn).clubs = st.clubs := rfl

theorem mem_updateFirst {α} {p : α → Bool} {f : α → α} {l : List α} {x : α}
    (hx : x ∈ updateFirst p f l) : x ∈ l ∨ ∃ y, y ∈ l ∧ p y = true ∧ x = f y := by
  induction l with
  | nil => simp [updateFirst] at hx
  | cons a l ih =>
    simp only [updateFirst] at hx
    by_cases hpa : p a
    · rw [if_pos hpa] at hx
      rcases List.mem_cons.mp hx with h | h
      · exact Or.inr ⟨a, List.mem_cons_self a l, hpa, h⟩
      · exact Or.inl (List.mem_cons_of_mem a h)
    · rw [if_neg hpa] at hx
      rcases List.mem_cons.mp hx with h | h
      · exact Or.inl (h ▸ List.mem_cons_self a l)
      · rcases ih h with h2 | ⟨y, hy, hpy, hxy⟩
        · exact Or.inl (List.mem_cons_of_mem a h2)
        · exact Or.inr ⟨y, List.mem_cons_of_mem a hy, hpy, hxy⟩

theorem find?_cons_pos {α} (p : α → Bool) (a : α) (l : List α) (h : p a = true) :
    (a :: l).find? p = some a := by
  simp [List.find?, h]

theorem find?_cons_neg {α} (p : α → Bool) (a : α) (l : List α) (h : p a = false) :
    (a :: l).find? p = l.find? p := by
  simp [List.find?, h]

theorem mem_updateFirst_of_find? {α} {p : α → Bool} {f : α → α} {l : List α} {a : α}
    (hfind : l.find? p = some a) {x : α} (hx : x ∈ updateFirst p f l) :
    x ∈ l ∨ x = f a := by
  induction l with
  | nil => simp [updateFirst] at hx
  | cons b l ih =>
    simp only [updateFirst] at hx
    by_cases hpb : p b
    · rw [find?_cons_pos p b l hpb, Option.some_inj] at hfind
      rw [if_pos hpb] at hx
      rcases List.mem_cons.mp hx with h | h
      · exact Or.inr (hfind ▸ h)
      · exact Or.inl (List.mem_cons_of_mem b h)
    · rw [find?_cons_neg p b l (Bool.not_eq_true _ ▸ hpb)] at hfind
      rw [if_neg hpb] at hx
      rcases List.mem_cons.mp hx with h | h
      · exact Or.inl (h ▸ List.mem_cons_self b l)
      · rcases ih hfind h with h2 | h2
        · exact Or.inl (List.mem_cons_of_mem b h2)
        · exact Or.inr h2

theorem find?_updateFirst_self {α} (nm : α → String) (f : α → α)
    (hf : ∀ x, nm (f x) = nm x) (n : String) (l : List α) :
    (updateFirst (fun x => nm x == n) f l).find? (fun x => nm x == n)
      = (l.find? (fun x => nm x == n)).map f := by
  induction l with
  | nil => rfl
  | cons a l ih =>
    by_cases hpa : (nm a == n) = true
    · have hfa : (nm (f a) == n) = true := by rw [hf]; exact hpa
      simp only [updateFirst, hpa, if_true]
      rw [find?_cons_pos (fun x => nm x == n) (f a) l hfa,
        find?_cons_pos (fun x => nm x == n) a l hpa, Option.map_some']
    · have hpa' : (nm a == n) = false := Bool.not_eq_true _ ▸ hpa
      simp only [updateFirst, hpa', Bool.false_eq_true, if_false]
      rw [find?_cons_neg (fun x => nm x == n) a (updateFirst (fun x => nm x == n) f l) hpa',
        find?_cons_neg (fun x => nm x == n) a l hpa']
      exact ih

theorem find?_updateFirst_ne {α} (nm : α → String) (f : α → α)
    (hf : ∀ x, nm (f x) = nm x) {n m : String} (hnm : n ≠ m) (l : List α) :
    (updateFirst (fun x => nm x == n) f l).find? (fun x => nm x == m)
      = l.find? (fun x => nm x == m) := by
  induction l with
  | nil => rfl
  | cons a l ih =>
    by_cases hpa : (nm a == n) = true
    · have han : nm a = n := by simpa using hpa
      have ham : (nm a == m) = false := by simp [han]; exact hnm
      have hfam : (nm (f a) == m) = false := by rw [hf]; exact ham
      simp only [updateFirst, hpa, if_true]
      rw [find?_cons_neg (fun x => nm x == m) (f a) l hfam,
        find?_cons_neg (fun x => nm x == m) a l ham]
    · have hpa' : (nm a == n) = false := Bool.not_eq_true _ ▸ hpa
      simp only [updateFirst, hpa', Bool.false_eq_true, if_false]
      by_cases ham : (nm a == m) = true
      · rw [find?_cons_pos (fun x => nm x == m) a (updateFirst (fun x => nm x == n) f l) ham,
          find?_cons_pos (fun x => nm x == m) a l ham]
      · have ham' : (nm a == m) = false := Bool.not_eq_true _ ▸ ham
        rw [find?_cons_neg (fun x => nm x == m) a (updateFirst (fun x => nm x == n) f l) ham',
          find?_cons_neg (fun x => nm x == m) a l ham']
        exact ih

theorem lookupEntry_append_single (b : List (String × Int)) (kn : String) (v : Int)
    (h : lookupEntry b kn = none) : lookupEntry (b ++ [(kn, v)]) kn = some v := by
  induction b with
  | nil => simp [lookupEntry, List.find?]
  | cons e b ih =>
    by_cases he : (e.1 == kn) = true
    · exfalso
      rw [lookupEntry, find?_cons_pos (fun x => x.1 == kn) e b he] at h
      simp at h
    · have he' : (e.1 == kn) = false := Bool.not_eq_true _ ▸ he
      rw [lookupEntry, find?_cons_neg (fun x => x.1 == kn) e b he'] at h
      rw [List.cons_append, lookupEntry,
        find?_cons_neg (fun x => x.1 == kn) e (b ++ [(kn, v)]) he']
      exact ih h

theorem lookupEntry_append_single_ne (b : List (String × Int)) (kn k : String) (v : Int)
    (hk : kn ≠ k) : lookupEntry (b ++ [(kn, v)]) k = lookupEntry b k := by
  induction b with
  | nil =>
    have : (kn == k) = false := by simp; exact hk
    simp [lookupEntry, List.find?, this]
  | cons e b ih =>
    by_cases he : (e.1 == k) = true
    · rw [List.cons_append, lookupEntry,
        find?_cons_pos (fun x => x.1 == k) e (b ++ [(kn, v)]) he,
        lookupEntry, find?_cons_pos (fun x => x.1 == k) e b he]
    · have he' : (e.1 == k) = false := Bool.not_eq_true _ ▸ he
      rw [List.cons_append, lookupEntry,
        find?_cons_neg (fun x => x.1 == k) e (b ++ [(kn, v)]) he',
        lookupEntry, find?_cons_neg (fun x => x.1 == k) e b he']
      exact ih

theorem lookupEntry_initBookings_self (b : List (String × Int)) (kn : String) :
    lookupEntry (initBookings b kn) kn = some ((lookupEntry b kn).getD 0) := by
  unfold initBookings
  cases h : lookupEntry b kn with
  | some v => simp [h]
  | none => simp [h, lookupEntry_append_single b kn 0 h]

theorem lookupEntry_initBookings_ne (b : List (String × Int)) (kn k : String)
    (hk : kn ≠ k) : lookupEntry (initBookings b kn) k = lookupEntry b k := by
  unfold initBookings
  split
  · rfl
  · exact lookupEntry_append_single_ne b kn k 0 hk

theorem lookupEntry_addEntry_self (b : List (String × Int)) (k : String) (v : Int) :
    lookupEntry (addEntry b k v) k = (lookupEntry b k).map (fun w => w + v) := by
  unfold lookupEntry addEntry
  rw [find?_updateFirst_self (fun e => e.1) (fun e => (e.1, e.2 + v)) (fun _ => rfl) k b]
  cases b.find? (fun e => e.1 == k) <;> rfl

theorem lookupEntry_addEntry_ne (b : List (String × Int)) (kn k : String) (v : Int)
    (hk : kn ≠ k) : lookupEntry (addEntry b kn v) k = lookupEntry b k := by
  rw [lookupEntry, addEntry,
    find?_updateFirst_ne (fun e => e.1) (fun e => (e.1, e.2 + v)) (fun _ => rfl) hk b]
  rfl

theorem mem_initBookings {b : List (String × Int)} {kn : String} {x : String × Int}
    (hx : x ∈ initBookings b kn) : x ∈ b ∨ x = (kn, 0) := by
  unfold initBookings at hx
  split at hx
  · exact Or.inl hx
  · rcases List.mem_append.mp hx with h | h
    · exact Or.inl h
    · exact Or.inr (List.mem_singleton.mp h)

/-! Characterization of the four control paths of purchase_places. -/

theorem purchase_places_comp_none (st : AppState) (cn kn : String) (r : Int)
    (h : findCompetition st cn = none) :
    purchase_places st cn kn r = (.failure .typeError, st) := by
  unfold purchase_places
  rw [h]

theorem purchase_places_club_none (st : AppState) (cn kn : String) (r : Int)
    (competition : Competition) (hc : findCompetition st cn = some competition)
    (hk : findClub st kn = none) :
    purchase_places st cn kn r = (.failure (.badRequestMsg "Invalid data provided."), st) := by
  unfold purchase_places
  rw [hc, hk]

theorem purchase_places_invalid (st : AppState) (cn kn : String) (r : Int)
    (competition : Competition) (club : Club)
    (hc : findCompetition st cn = some competition) (hk : findClub st kn = some club)
    (hviol : r > 12 ∨ r > club.points ∨ r > competition.numberOfPlaces
      ∨ priorBooking competition kn + r > 12) :
    purchase_places st cn kn r
      = (.failure (.badRequestMsg "Invalid data provided."), initLedger st cn kn) := by
  unfold purchase_places
  rw [hc, hk]
  exact if_pos hviol

theorem purchase_places_valid (st : AppState) (cn kn : String) (r : Int)
    (competition : Competition) (club : Club)
    (hc : findCompetition st cn = some competition) (hk : findClub st kn = some club)
    (h1 : r ≤ 12) (h2 : r ≤ club.points) (h3 : r ≤ competition.numberOfPlaces)
    (h4 : priorBooking competition kn + r ≤ 12) :
    purchase_places st cn kn r = (.success, applyPurchase st cn kn r) := by
  unfold purchase_places
  rw [hc, hk]
  exact if_neg (by push_neg; exact ⟨h1, h2, h3, h4⟩)

/-! Observables of the post-initialization state. -/

theorem findClub_initLedger (st : AppState) (cn kn n : String) :
    findClub (initLedger st cn kn) n = findClub st n := rfl

theorem findCompetition_initLedger_self (st : AppState) (cn kn : String) :
    findCompetition (initLedger st cn kn) cn
      = (findCompetition st cn).map
          (fun c => { c with
            clubBookings := some (initBookings (c.clubBookings.getD []) kn) }) := by
  unfold findCompetition initLedger
  exact find?_updateFirst_self Competition.name
    (fun c => { c with clubBookings := some (initBookings (c.clubBookings.getD []) kn) })
    (fun _ => rfl) cn st.competitions

theorem findCompetition_initLedger_ne (st : AppState) (cn kn n : String) (hn : cn ≠ n) :
    findCompetition (initLedger st cn kn) n = findCompetition st n := by
  unfold findCompetition initLedger
  exact find?_updateFirst_ne Competition.name
    (fun c => { c with clubBookings := some (initBookings (c.clubBookings.getD []) kn) })
    (fun _ => rfl) hn st.competitions

theorem clubPoints_initLedger (st : AppState) (cn kn n : String) :
    clubPoints (initLedger st cn kn) n = clubPoints st n := rfl

theorem compPlaces_initLedger (st : AppState) (cn kn n : String) :
    compPlaces (initLedger st cn kn) n = compPlaces st n := by
  by_cases hn : cn = n
  · subst hn
    unfold compPlaces
    rw [findCompetition_initLedger_self]
    cases findCompetition st cn <;> rfl
  · unfold compPlaces
    rw [findCompetition_initLedger_ne st cn kn n hn]

theorem priorBooking_initBookings (c : Competition) (kn k : String) :
    priorBooking
      { c with clubBookings := some (initBookings (c.clubBookings.getD []) kn) } k
      = priorBooking c k := by
  by_cases hk : kn = k
  · subst hk
    unfold priorBooking
    simp only [Option.getD_some]
    rw [lookupEntry_initBookings_self]
    rfl
  · unfold priorBooking
    simp only [Option.getD_some]
    rw [lookupEntry_initBookings_ne _ _ _ hk]

theorem getLedgerD_initLedger (st : AppState) (cn kn n k : String) :
    getLedgerD (initLedger st cn kn) n k = getLedgerD st n k := by
  by_cases hn : cn = n
  · subst hn
    unfold getLedgerD
    rw [findCompetition_initLedger_self]
    cases findCompetition st cn with
    | none => rfl
    | some c =>
      simp only [Option.map_some']
      exact priorBooking_initBookings c kn k
  · unfold getLedgerD
    rw [findCompetition_initLedger_ne st cn kn n hn]

/-! Observables of the post-application state. -/

theorem findClub_applyPurchase_self (st : AppState) (cn kn : String) (r : Int) :
    findClub (applyPurchase st cn kn r) kn
      = (findClub st kn).map (fun c => { c with points := c.points - r }) := by
  unfold findClub applyPurchase
  exact find?_updateFirst_self Club.name
    (fun c => { c with points := c.points - r }) (fun _ => rfl) kn st.clubs

theorem findClub_applyPurchase_ne (st : AppState) (cn kn n : String) (r : Int)
    (hn : kn ≠ n) : findClub (applyPurchase st cn kn r) n = findClub st n := by
  unfold findClub applyPurchase
  exact find?_updateFirst_ne Club.name
    (fun c => { c with points := c.points - r }) (fun _ => rfl) hn st.clubs

theorem findCompetition_applyPurchase_self (st : AppState) (cn kn : String) (r : Int) :
    findCompetition (applyPurchase st cn kn r) cn
      = (findCompetition (initLedger st cn kn) cn).map
          (fun c => { c with
            clubBookings := some (addEntry (c.clubBookings.getD []) kn r),
            numberOfPlaces := c.numberOfPlaces - r }) := by
  unfold findCompetition applyPurchase
  exact find?_updateFirst_self Competition.name
    (fun c => { c with
      clubBookings := some (addEntry (c.clubBookings.getD []) kn r),
      numberOfPlaces := c.numberOfPlaces - r })
    (fun _ => rfl) cn (initLedger st cn kn).competitions

theorem findCompetition_applyPurchase_ne (st : AppState) (cn kn n : String) (r : Int)
    (hn : cn ≠ n) : findCompetition (applyPurchase st cn kn r) n = findCompetition st n := by
  have h1 : findCompetition (applyPurchase st cn kn r) n
      = findCompetition (initLedger st cn kn) n := by
    unfold findCompetition applyPurchase
    exact find?_updateFirst_ne Competition.name
      (fun c => { c with
        clubBookings := some (addEntry (c.clubBookings.getD []) kn r),
        numberOfPlaces := c.numberOfPlaces - r })
      (fun _ => rfl) hn (initLedger st cn kn).competitions
  rw [h1, findCompetition_initLedger_ne st cn kn n hn]

theorem clubPoints_applyPurchase_self (st : AppState) (cn kn : String) (r : Int)
    (club : Club) (hk : findClub st kn = some club) :
    clubPoints (applyPurchase st cn kn r) kn = some (club.points - r) := by
  unfold clubPoints
  rw [findClub_applyPurchase_self, hk]
  rfl

theorem clubPoints_applyPurchase_ne (st : AppState) (cn kn n : String) (r : Int)
    (hn : kn ≠ n) : clubPoints (applyPurchase st cn kn r) n = clubPoints st n := by
  unfold clubPoints
  rw [findClub_applyPurchase_ne st cn kn n r hn]

theorem compPlaces_applyPurchase_self (st : AppState) (cn kn : String) (r : Int)
    (competition : Competition) (hc : findCompetition st cn = some competition) :
    compPlaces (applyPurchase st cn kn r) cn = some (competition.numberOfPlaces - r) := by
  unfold compPlaces
  rw [findCompetition_applyPurchase_self, findCompetition_initLedger_self, hc]
  rfl

theorem compPlaces_applyPurchase_ne (st : AppState) (cn kn n : String) (r : Int)
    (hn : cn ≠ n) : compPlaces (applyPurchase st cn kn r) n = compPlaces st n := by
  unfold compPlaces
  rw [findCompetition_applyPurchase_ne st cn kn n r hn]

theorem getLedgerD_applyPurchase_self (st : AppState) (cn kn : String) (r : Int)
    (competition : Competition) (hc : findCompetition st cn = some competition) :
    getLedgerD (applyPurchase st cn kn r) cn kn = priorBooking competition kn + r := by
  unfold getLedgerD
  rw [findCompetition_applyPurchase_self, findCompetition_initLedger_self, hc]
  simp only [Option.map_some', Option.getD_some]
  unfold priorBooking
  simp only [Option.getD_some]
  rw [lookupEntry_addEntry_self, lookupEntry_initBookings_self]
  rfl

theorem getLedgerD_applyPurchase_ne (st : AppState) (cn kn n k : String) (r : Int)
    (hn : cn ≠ n) : getLedgerD (applyPurchase st cn kn r) n k = getLedgerD st n k := by
  unfold getLedgerD
  rw [findCompetition_applyPurchase_ne st cn kn n r hn]

theorem getLedgerD_applyPurchase_ne_key (st : AppState) (cn kn k : String) (r : Int)
    (hk : kn ≠ k) : getLedgerD (applyPurchase st cn kn r) cn k = getLedgerD st cn k := by
  unfold getLedgerD
  rw [findCompetition_applyPurchase_self, findCompetition_initLedger_self]
  cases findCompetition st cn with
  | none => rfl
  | some c =>
    simp only [Option.map_some', Option.getD_some]
    unfold priorBooking
    simp only [Option.getD_some]
    rw [lookupEntry_addEntry_ne _ _ _ _ hk, lookupEntry_initBookings_ne _ _ _ hk]

/-! Preservation of the data-model invariants. -/

theorem inv_initLedger {st : AppState} (h : Inv st) (cn kn : String) :
    Inv (initLedger st cn kn) := by
  constructor
  · exact h.1
  · intro c hc
    rcases mem_updateFirst hc with hmem | ⟨y, hy, _, rfl⟩
    · exact h.2 c hmem
    · refine ⟨(h.2 y hy).1, fun l hl e he => ?_⟩
      have hl2 : some (initBookings (y.clubBookings.getD []) kn) = some l := hl
      injection hl2 with hl2
      subst hl2
      rcases mem_initBookings he with h1 | h1
      · cases hb : y.clubBookings with
        | none => rw [hb] at h1; simp at h1
        | some b =>
          rw [hb] at h1
          exact (h.2 y hy).2 b hb e h1
      · rw [h1]; norm_num

theorem inv_applyPurchase {st : AppState} (h : Inv st) (cn kn : String) (r : Int)
    (competition : Competition) (club : Club)
    (hc : findCompetition st cn = some competition) (hk : findClub st kn = some club)
    (h2 : r ≤ club.points) (h3 : r ≤ competition.numberOfPlaces)
    (h4 : priorBooking competition kn + r ≤ 12) :
    Inv (applyPurchase st cn kn r) := by
  have hinit : Inv (initLedger st cn kn) := inv_initLedger h cn kn
  constructor
  · intro c hcm
    rcases mem_updateFirst_of_find? hk hcm with hmem | rfl
    · exact h.1 c hmem
    · show 0 ≤ club.points - r
      omega
  · intro c hcm
    have hfc1 : findCompetition (initLedger st cn kn) cn
        = some { competition with
            clubBookings := some (initBookings (competition.clubBookings.getD []) kn) } := by
      rw [findCompetition_initLedger_self, hc]
      rfl
    rcases mem_updateFirst_of_find? hfc1 hcm with hmem | rfl
    · exact hinit.2 c hmem
    · constructor
      · show 0 ≤ competition.numberOfPlaces - r
        omega
      · intro l hl e he
        have hl2 : some (addEntry (initBookings (competition.clubBookings.getD []) kn) kn r)
            = some l := hl
        injection hl2 with hl2
        subst hl2
        have hlook := lookupEntry_initBookings_self (competition.clubBookings.getD []) kn
        unfold lookupEntry at hlook
        rcases Option.map_eq_some'.mp hlook with ⟨en, hfind, hval⟩
        rcases mem_updateFirst_of_find? hfind he with hmem2 | rfl
        · rcases mem_initBookings hmem2 with hmem3 | rfl
          · cases hb : competition.clubBookings with
            | none => rw [hb] at hmem3; simp at hmem3
            | some bk =>
              rw [hb] at hmem3
              exact (h.2 competition (List.mem_of_find?_eq_some hc)).2 bk hb e hmem3
          · norm_num
        · show en.2 + r ≤ 12
          have h5 : en.2 = priorBooking competition kn := hval
          omega

theorem inv_purchase (st : AppState) (cn kn : String) (r : Int) (h : Inv st) :
    Inv (purchase_places st cn kn r).2 := by
  cases hc : findCompetition st cn with
  | none => rw [purchase_places_comp_none st cn kn r hc]; exact h
  | some competition =>
    cases hk : findClub st kn with
    | none => rw [purchase_places_club_none st cn kn r competition hc hk]; exact h
    | some club =>
      by_cases hval : r > 12 ∨ r > club.points ∨ r > competition.numberOfPlaces
          ∨ priorBooking competition kn + r > 12
      · rw [purchase_places_invalid st cn kn r competition club hc hk hval]
        exact inv_initLedger h cn kn
      · push_neg at hval
        obtain ⟨h1, h2, h3, h4⟩ := hval
        rw [purchase_places_valid st cn kn r competition club hc hk h1 h2 h3 h4]
        exact inv_applyPurchase h cn kn r competition club hc hk h2 h3 h4

/-! The ledger tracks exactly the successfully applied place counts. -/

theorem getLedgerD_purchase (st : AppState) (a b n k : String) (r : Int) :
    getLedgerD (purchase_places st a b r).2 n k
      = getLedgerD st n k
        + (if (purchase_places st a b r).1 = .success ∧ a = n ∧ b = k then r else 0) := by
  cases hc : findCompetition st a with
  | none =>
    rw [purchase_places_comp_none st a b r]
    · simp
    · exact hc
  | some competition =>
    cases hk : findClub st b with
    | none =>
      rw [purchase_places_club_none st a b r competition hc hk]
      simp
    | some club =>
      by_cases hval : r > 12 ∨ r > club.points ∨ r > competition.numberOfPlaces
          ∨ priorBooking competition b + r > 12
      · rw [purchase_places_invalid st a b r competition club hc hk hval]
        rw [getLedgerD_initLedger]
        simp
      · push_neg at hval
        obtain ⟨h1, h2, h3, h4⟩ := hval
        rw [purchase_places_valid st a b r competition club hc hk h1 h2 h3 h4]
        by_cases hn : a = n
        · subst hn
          by_cases hkk : b = k
          · subst hkk
            rw [getLedgerD_applyPurchase_self st a b r competition hc]
            unfold getLedgerD
            rw [hc]
            simp
          · rw [getLedgerD_applyPurchase_ne_key st a b k r hkk]
            simp [hkk]
        · rw [getLedgerD_applyPurchase_ne st a b n k r hn]
          simp [hn]

theorem inv_runCalls (st : AppState) (h : Inv st) (cs : List Call) :
    Inv (runCalls st cs) := by
  induction cs generalizing st with
  | nil => exact h
  | cons c cs ih => exact ih _ (inv_purchase st c.competition c.club c.places h)

theorem getLedgerD_runCalls (st : AppState) (cn kn : String) (cs : List Call) :
    getLedgerD (runCalls st cs) cn kn = getLedgerD st cn kn + appliedSum st cn kn cs := by
  induction cs generalizing st with
  | nil => simp [runCalls, appliedSum]
  | cons c cs ih =>
    rw [runCalls, appliedSum, ih, getLedgerD_purchase st c.competition c.club cn kn c.places]
    omega

theorem getLedgerD_le_of_inv {st : AppState} (h : Inv st) (cn kn : String) :
    getLedgerD st cn kn ≤ 12 := by
  unfold getLedgerD
  cases hc : findCompetition st cn with
  | none => simp
  | some c =>
    simp only [Option.map_some', Option.getD_some]
    unfold priorBooking
    cases hb : c.clubBookings with
    | none => simp [lookupEntry, List.find?]
    | some b =>
      simp only [Option.getD_some]
      cases hl : lookupEntry b kn with
      | none => simp
      | some v =>
        simp only [Option.getD_some]
        unfold lookupEntry at hl
        rcases Option.map_eq_some'.mp hl with ⟨e, hfind, hval⟩
        have hm := List.mem_of_find?_eq_some hfind
        have hle := (h.2 c (List.mem_of_find?_eq_some hc)).2 b hb e hm
        omega

theorem inv_of_loaded {st : AppState} (h : Loaded st) : Inv st := by
  refine ⟨h.1, fun c hc => ⟨(h.2 c hc).1, fun l hl e _ => ?_⟩⟩
  rw [(h.2 c hc).2] at hl
  exact absurd hl (by simp)

theorem getLedgerD_of_loaded {st : AppState} (h : Loaded st) (cn kn : String) :
    getLedgerD st cn kn = 0 := by
  unfold getLedgerD
  cases hc : findCompetition st cn with
  | none => rfl
  | some c =>
    simp only [Option.map_some', Option.getD_some]
    unfold priorBooking
    rw [(h.2 c (List.mem_of_find?_eq_some hc)).2]
    rfl

/-! What a failed purchase leaves behind, and the possible outcomes. -/

theorem map_updateFirst {α β} (g : α → β) (p : α → Bool) (f : α → α)
    (hg : ∀ x, g (f x) = g x) (l : List α) :
    (updateFirst p f l).map g = l.map g := by
  induction l with
  | nil => rfl
  | cons a l ih =>
    by_cases hpa : p a
    · simp only [updateFirst, if_pos hpa, List.map_cons, hg]
    · simp only [updateFirst, if_neg hpa, List.map_cons, ih]

theorem comps_quad_initLedger (st : AppState) (cn kn : String) :
    (initLedger st cn kn).competitions.map
        (fun c => (c.name, c.date, c.numberOfPlaces, c.canBeBooked))
      = st.competitions.map (fun c => (c.name, c.date, c.numberOfPlaces, c.canBeBooked)) := by
  unfold initLedger
  exact map_updateFirst (fun c => (c.name, c.date, c.numberOfPlaces, c.canBeBooked))
    (fun c => c.name == cn)
    (fun c => { c with clubBookings := some (initBookings (c.clubBookings.getD []) kn) })
    (fun _ => rfl) st.competitions

theorem purchase_outcome_cases (st : AppState) (cn kn : String) (r : Int) :
    (purchase_places st cn kn r).1 = .success
    ∨ (purchase_places st cn kn r).1 = .failure .typeError
    ∨ (purchase_places st cn kn r).1 = .failure (.badRequestMsg "Invalid data provided.") := by
  cases hc : findCompetition st cn with
  | none => rw [purchase_places_comp_none st cn kn r hc]; right; left; rfl
  | some competition =>
    cases hk : findClub st kn with
    | none =>
      rw [purchase_places_club_none st cn kn r competition hc hk]; right; right; rfl
    | some club =>
      by_cases hval : r > 12 ∨ r > club.points ∨ r > competition.numberOfPlaces
          ∨ priorBooking competition kn + r > 12
      · rw [purchase_places_invalid st cn kn r competition club hc hk hval]
        right; right; rfl
      · push_neg at hval
        obtain ⟨h1, h2, h3, h4⟩ := hval
        rw [purchase_places_valid st cn kn r competition club hc hk h1 h2 h3 h4]
        left; rfl

theorem book_club_none (st : AppState) (cn kn : String) (now : Int)
    (hk : findClub st kn = none) :
    book st cn kn now = .failure (.badRequestMsg "Invalid data provided") := by
  unfold book
  rw [hk]

theorem book_comp_none (st : AppState) (cn kn : String) (now : Int) (club : Club)
    (hk : findClub st kn = some club) (hc : findCompetition st cn = none) :
    book st cn kn now = .failure (.badRequestMsg "Invalid data provided") := by
  unfold book
  rw [hk, hc]

theorem book_expired (st : AppState) (cn kn : String) (now : Int)
    (club : Club) (comp : Competition)
    (hk : findClub st kn = some club) (hc : findCompetition st cn = some comp)
    (hd : comp.date < now) : book st cn kn now = .failure .badRequestDefault := by
  unfold book
  rw [hk, hc]
  exact if_pos hd

theorem book_ok (st : AppState) (cn kn : String) (now : Int)
    (club : Club) (comp : Competition)
    (hk : findClub st kn = some club) (hc : findCompetition st cn = some comp)
    (hd : ¬comp.date < now) : book st cn kn now = .success := by
  unfold book
  rw [hk, hc]
  exact if_neg hd

theorem book_outcome_cases (st : AppState) (cn kn : String) (now : Int) :
    book st cn kn now = .success
    ∨ book st cn kn now = .failure .badRequestDefault
    ∨ book st cn kn now = .failure (.badRequestMsg "Invalid data provided") := by
  cases hk : findClub st kn with
  | none => right; right; exact book_club_none st cn kn now hk
  | some club =>
    cases hc : findCompetition st cn with
    | none => right; right; exact book_comp_none st cn kn now club hk hc
    | some comp =>
      by_cases hd : comp.date < now
      · right; left; exact book_expired st cn kn now club comp hk hc hd
      · left; exact book_ok st cn kn now club comp hk hc hd

/-- C3 (amended): every failing purchase request leaves the clubs list
byte-for-byte unchanged, every competition name, date, places and
canBeBooked flag unchanged, and every defaulted ledger read unchanged;
the post-failure state is exactly the pre-call state or the pre-call
state with an absent ledger entry materialized as an explicit 0 by the
initialization-on-demand step that precedes validation. -/
theorem purchase_failure_kept (st : AppState) (cn kn : String) (r : Int)
    (h : (purchase_places st cn kn r).1 ≠ .success) :
    (purchase_places st cn kn r).2.clubs = st.clubs
    ∧ (purchase_places st cn kn r).2.competitions.map
        (fun c => (c.name, c.date, c.numberOfPlaces, c.canBeBooked))
      = st.competitions.map (fun c => (c.name, c.date, c.numberOfPlaces, c.canBeBooked))
    ∧ (∀ n k, getLedgerD (purchase_places st cn kn r).2 n k = getLedgerD st n k)
    ∧ ((purchase_places st cn kn r).2 = st
        ∨ (purchase_places st cn kn r).2 = initLedger st cn kn) := by
  cases hc : findCompetition st cn with
  | none =>
    rw [purchase_places_comp_none st cn kn r hc]
    exact ⟨rfl, rfl, fun n k => rfl, Or.inl rfl⟩
  | some competition =>
    cases hk : findClub st kn with
    | none =>
      rw [purchase_places_club_none st cn kn r competition hc hk]
      exact ⟨rfl, rfl, fun n k => rfl, Or.inl rfl⟩
    | some club =>
      by_cases hval : r > 12 ∨ r > club.points ∨ r > competition.numberOfPlaces
          ∨ priorBooking competition kn + r > 12
      · rw [purchase_places_invalid st cn kn r competition club hc hk hval]
        exact ⟨rfl, comps_quad_initLedger st cn kn,
          fun n k => getLedgerD_initLedger st cn kn n k, Or.inr rfl⟩
      · exfalso
        push_neg at hval
        obtain ⟨h1, h2, h3, h4⟩ := hval
        rw [purchase_places_valid st cn kn r competition club hc hk h1 h2 h3 h4] at h
        exact h rfl

/-! Claim theorems. -/

/-- C1: for every purchase request whose club and competition resolve by
exact name, the request succeeds iff all four conditions hold against the
pre-mutation state (requested <= points, requested <= numberOfPlaces,
requested <= 12, ledger + requested <= 12); any single violation fails
with the InvalidBooking value and leaves the club points, the competition
places and the defaulted ledger entry unchanged. -/
theorem purchase_success_iff_four_conditions (st : AppState) (cn kn : String) (r : Int)
    (competition : Competition) (club : Club)
    (hc : findCompetition st cn = some competition)
    (hk : findClub st kn = some club) :
    ((purchase_places st cn kn r).1 = .success
      ↔ r ≤ club.points ∧ r ≤ competition.numberOfPlaces ∧ r ≤ 12
        ∧ priorBooking competition kn + r ≤ 12)
    ∧ ((purchase_places st cn kn r).1 ≠ .success →
        (purchase_places st cn kn r).1 = .failure (.badRequestMsg "Invalid data provided.")
        ∧ clubPoints (purchase_places st cn kn r).2 kn = some club.points
        ∧ compPlaces (purchase_places st cn kn r).2 cn = some competition.numberOfPlaces
        ∧ getLedgerD (purchase_places st cn kn r).2 cn kn = priorBooking competition kn) := by
  by_cases hval : r > 12 ∨ r > club.points ∨ r > competition.numberOfPlaces
      ∨ priorBooking competition kn + r > 12
  · rw [purchase_places_invalid st cn kn r competition club hc hk hval]
    constructor
    · constructor
      · intro hs
        exact absurd hs (by simp)
      · rintro ⟨a1, a2, a3, a4⟩
        exfalso
        rcases hval with h | h | h | h <;> omega
    · intro _
      refine ⟨rfl, ?_, ?_, ?_⟩
      · rw [clubPoints_initLedger]
        unfold clubPoints
        rw [hk]
        rfl
      · rw [compPlaces_initLedger]
        unfold compPlaces
        rw [hc]
        rfl
      · rw [getLedgerD_initLedger]
        unfold getLedgerD
        rw [hc]
        rfl
  · push_neg at hval
    obtain ⟨a3, a1, a2, a4⟩ := hval
    rw [purchase_places_valid st cn kn r competition club hc hk a3 a1 a2 a4]
    constructor
    · exact iff_of_true rfl ⟨a1, a2, a3, a4⟩
    · intro hns
      exact absurd rfl hns

/-- C1 witness: with 13 points, 25 places and an empty ledger, requesting
14 places fails with InvalidBooking and leaves points 13, places 25 and
ledger entry 0, exactly as the claim states. -/
theorem purchase_success_iff_four_conditions_witness :
    (purchase_places stFresh "CompX" "ClubA" 14).1
        = .failure (.badRequestMsg "Invalid data provided.")
    ∧ clubPoints (purchase_places stFresh "CompX" "ClubA" 14).2 "ClubA" = some 13
    ∧ compPlaces (purchase_places stFresh "CompX" "ClubA" 14).2 "CompX" = some 25
    ∧ getLedgerD (purchase_places stFresh "CompX" "ClubA" 14).2 "CompX" "ClubA" = 0 := by
  have h := (purchase_success_iff_four_conditions stFresh "CompX" "ClubA" 14 compX clubA
    (by decide) (by decide)).2 (by decide)
  refine ⟨h.1, ?_, ?_, ?_⟩
  · rw [h.2.1]
    decide
  · rw [h.2.2.1]
    decide
  · rw [h.2.2.2]
    decide

/-- C2: a purchase that passes all four validations succeeds and applies
exactly the three mutations: the ledger entry grows by requested, the
club points shrink by requested, the competition places shrink by
requested. -/
theorem purchase_applies_three_mutations (st : AppState) (cn kn : String) (r : Int)
    (competition : Competition) (club : Club)
    (hc : findCompetition st cn = some competition)
    (hk : findClub st kn = some club)
    (a1 : r ≤ club.points) (a2 : r ≤ competition.numberOfPlaces) (a3 : r ≤ 12)
    (a4 : priorBooking competition kn + r ≤ 12) :
    (purchase_places st cn kn r).1 = .success
    ∧ getLedgerD (purchase_places st cn kn r).2 cn kn = priorBooking competition kn + r
    ∧ clubPoints (purchase_places st cn kn r).2 kn = some (club.points - r)
    ∧ compPlaces (purchase_places st cn kn r).2 cn = some (competition.numberOfPlaces - r) := by
  rw [purchase_places_valid st cn kn r competition club hc hk a3 a1 a2 a4]
  exact ⟨rfl, getLedgerD_applyPurchase_self st cn kn r competition hc,
    clubPoints_applyPurchase_self st cn kn r club hk,
    compPlaces_applyPurchase_self st cn kn r competition hc⟩

/-- C2 witness: points 15, places 25, ledger 5; requesting 5 succeeds and
yields ledger 10, points 10, places 20, exactly as the claim states. -/
theorem purchase_applies_three_mutations_witness :
    (purchase_places stLedger "CompX" "ClubA" 5).1 = .success
    ∧ getLedgerD (purchase_places stLedger "CompX" "ClubA" 5).2 "CompX" "ClubA" = 10
    ∧ clubPoints (purchase_places stLedger "CompX" "ClubA" 5).2 "ClubA" = some 10
    ∧ compPlaces (purchase_places stLedger "CompX" "ClubA" 5).2 "CompX" = some 20 := by
  have h := purchase_applies_three_mutations stLedger "CompX" "ClubA" 5 compY clubB
    (by decide) (by decide) (by decide) (by decide) (by decide) (by decide)
  refine ⟨h.1, ?_, ?_, ?_⟩
  · rw [h.2.1]
    decide
  · rw [h.2.2.1]
    decide
  · rw [h.2.2.2]
    decide

/-- C3 counterexample: with 13 points, 25 places and no ledger yet,
requesting 14 places fails, yet the resulting collections differ
byte-for-byte from the pre-call state, because the failing call has
materialized the ledger entry ClubA to 0 inside the competition. -/
theorem failed_purchase_changes_collections :
    (purchase_places stFresh "CompX" "ClubA" 14).1 ≠ .success
    ∧ (purchase_places stFresh "CompX" "ClubA" 14).2 ≠ stFresh := by decide

/-- C3 witness: the amended statement evaluated on the same failing
request: clubs unchanged, competition fields unchanged, defaulted ledger
read unchanged, and the new state is the ledger-materialized pre-state. -/
theorem purchase_failure_kept_witness :
    (purchase_places stFresh "CompX" "ClubA" 14).2.clubs = stFresh.clubs
    ∧ (purchase_places stFresh "CompX" "ClubA" 14).2.competitions.map
        (fun c => (c.name, c.date, c.numberOfPlaces, c.canBeBooked))
      = stFresh.competitions.map (fun c => (c.name, c.date, c.numberOfPlaces, c.canBeBooked))
    ∧ getLedgerD (purchase_places stFresh "CompX" "ClubA" 14).2 "CompX" "ClubA"
        = getLedgerD stFresh "CompX" "ClubA"
    ∧ ((purchase_places stFresh "CompX" "ClubA" 14).2 = stFresh
        ∨ (purchase_places stFresh "CompX" "ClubA" 14).2 = initLedger stFresh "CompX" "ClubA") := by
  have h := purchase_failure_kept stFresh "CompX" "ClubA" 14 (by decide)
  exact ⟨h.1, h.2.1, h.2.2.1 "CompX" "ClubA", h.2.2.2⟩

/-- C4: code-bug evaluation — an unknown competition name makes the
debug print dereference None, so purchase dies with an uncaught
TypeError (HTTP 500) instead of the NotFound BadRequest that the guard
on the very next source line intends and that an unknown club name does
produce; the collections are unchanged in both cases. -/
theorem unknown_competition_uncaught_typeerror :
    findCompetition stFresh "Nope" = none
    ∧ purchase_places stFresh "Nope" "ClubA" 1 = (.failure .typeError, stFresh)
    ∧ findClub stFresh "Ghost" = none
    ∧ purchase_places stFresh "CompX" "Ghost" 1
        = (.failure (.badRequestMsg "Invalid data provided."), stFresh) := by decide

/-- C5: starting from a freshly loaded valid state, after every sequence
of purchase calls every competition keeps numberOfPlaces >= 0, every
club keeps points >= 0, every defaulted ledger read stays at most 12,
and the sum of successfully applied place counts of any one (club,
competition) pair never exceeds 12. -/
theorem invariants_hold_after_every_call (st : AppState) (h : Loaded st) (cs : List Call) :
    (∀ c ∈ (runCalls st cs).clubs, 0 ≤ c.points)
    ∧ (∀ c ∈ (runCalls st cs).competitions, 0 ≤ c.numberOfPlaces)
    ∧ (∀ cn kn, getLedgerD (runCalls st cs) cn kn ≤ 12)
    ∧ (∀ cn kn, appliedSum st cn kn cs ≤ 12) := by
  have hinv := inv_runCalls st (inv_of_loaded h) cs
  refine ⟨hinv.1, fun c hc => (hinv.2 c hc).1,
    fun cn kn => getLedgerD_le_of_inv hinv cn kn, fun cn kn => ?_⟩
  have h1 := getLedgerD_runCalls st cn kn cs
  have h2 := getLedgerD_le_of_inv hinv cn kn
  have h3 := getLedgerD_of_loaded h cn kn
  omega

/-- C5 witness: three requests of 5 places by one club for one
competition starting from the fresh state keep the ledger and the
applied sum within the ceiling of 12. -/
theorem invariants_hold_after_every_call_witness :
    getLedgerD (runCalls stFresh csBookings) "CompX" "ClubA" ≤ 12
    ∧ appliedSum stFresh "CompX" "ClubA" csBookings ≤ 12 := by
  have h := invariants_hold_after_every_call stFresh (by unfold Loaded; decide) csBookings
  exact ⟨h.2.2.1 "CompX" "ClubA", h.2.2.2 "CompX" "ClubA"⟩

/-- C6: purchase checks neither the competition date nor canBeBooked: on
a competition already past its date (so canBeBooked reads false at the
current time), a request meeting the four point and place constraints is
still accepted and fully applied. -/
theorem purchase_ignores_competition_date (st : AppState) (cn kn : String) (r now : Int)
    (competition : Competition) (club : Club)
    (hc : findCompetition st cn = some competition)
    (hk : findClub st kn = some club)
    (hpast : competition.date < now)
    (a1 : r ≤ club.points) (a2 : r ≤ competition.numberOfPlaces) (a3 : r ≤ 12)
    (a4 : priorBooking competition kn + r ≤ 12) :
    canBeBooked competition.date now = false
    ∧ (purchase_places st cn kn r).1 = .success
    ∧ getLedgerD (purchase_places st cn kn r).2 cn kn = priorBooking competition kn + r
    ∧ clubPoints (purchase_places st cn kn r).2 kn = some (club.points - r)
    ∧ compPlaces (purchase_places st cn kn r).2 cn = some (competition.numberOfPlaces - r) := by
  have hb : canBeBooked competition.date now = false := by
    unfold canBeBooked
    exact decide_eq_false (by omega)
  rw [purchase_places_valid st cn kn r competition club hc hk a3 a1 a2 a4]
  exact ⟨hb, rfl, getLedgerD_applyPurchase_self st cn kn r competition hc,
    clubPoints_applyPurchase_self st cn kn r club hk,
    compPlaces_applyPurchase_self st cn kn r competition hc⟩

/-- C6 witness: at time 200 the competition dated 100 is past, yet
requesting 5 places succeeds. -/
theorem purchase_ignores_competition_date_witness :
    canBeBooked compY.date 200 = false
    ∧ (purchase_places stLedger "CompX" "ClubA" 5).1 = .success := by
  have h := purchase_ignores_competition_date stLedger "CompX" "ClubA" 5 200 compY clubB
    (by decide) (by decide) (by decide) (by decide) (by decide) (by decide) (by decide)
  exact ⟨h.1, h.2.1⟩

theorem refreshBookable_competitions (st : AppState) (now : Int) :
    (refreshBookable st now).competitions
      = st.competitions.map (fun c => { c with canBeBooked := canBeBooked c.date now }) := rfl

/-- C7: canBeBooked is recomputed as date >= now on every status read
with no stored authoritative value: after a refresh every stored flag
equals the pure derivation, a competition dated at or after the
evaluation time reads true and one dated before it reads false, a later
refresh simply overrides an earlier one with no other state change, and
a refresh changes no field other than canBeBooked. -/
theorem canBeBooked_recomputed_each_read (st : AppState) (now now2 : Int) :
    ((refreshBookable st now).competitions.map (fun c => c.canBeBooked)
        = st.competitions.map (fun c => canBeBooked c.date now))
    ∧ (∀ c ∈ st.competitions,
        (now ≤ c.date → canBeBooked c.date now = true)
        ∧ (c.date < now2 → canBeBooked c.date now2 = false))
    ∧ refreshBookable (refreshBookable st now) now2 = refreshBookable st now2
    ∧ (refreshBookable st now).competitions.map
        (fun c => (c.name, c.date, c.numberOfPlaces, c.clubBookings))
      = st.competitions.map (fun c => (c.name, c.date, c.numberOfPlaces, c.clubBookings)) := by
  refine ⟨?_, ?_, ?_, ?_⟩
  · rw [refreshBookable_competitions, List.map_map]
    rfl
  · intro c _
    constructor
    · intro h
      exact decide_eq_true (by omega)
    · intro h
      exact decide_eq_false (by omega)
  · unfold refreshBookable
    rw [AppState.mk.injEq]
    refine ⟨rfl, ?_⟩
    show List.map _ (List.map _ st.competitions) = _
    rw [List.map_map]
    rfl
  · rw [refreshBookable_competitions, List.map_map]
    rfl

/-- C7 witness: the fresh competition dated 100 reads true at time 99
and false at time 101 after the respective refresh, the second refresh
overrides the first, and nothing but the flag changes. -/
theorem canBeBooked_recomputed_each_read_witness :
    ((refreshBookable stFresh 99).competitions.map (fun c => c.canBeBooked)
        = stFresh.competitions.map (fun c => canBeBooked c.date 99))
    ∧ refreshBookable (refreshBookable stFresh 99) 101 = refreshBookable stFresh 101
    ∧ canBeBooked compX.date 99 = true
    ∧ canBeBooked compX.date 101 = false := by
  have h := canBeBooked_recomputed_each_read stFresh 99 101
  have hc := h.2.1 compX (by decide)
  exact ⟨h.1, h.2.2.1, hc.1 (by decide), hc.2 (by decide)⟩

/-- C8: the booking-eligibility check resolves club and competition by
exact name and fails with the NotFound value when either is absent;
when both resolve it fails with the Expired value exactly when the
competition date is strictly before now, and passes exactly when the
date is at or after now.  The operation only reads the state: book
returns a bare outcome and takes no mutated state anywhere. -/
theorem book_eligibility_contract (st : AppState) (cn kn : String) (now : Int) :
    ((findClub st kn = none ∨ findCompetition st cn = none)
        → book st cn kn now = .failure (.badRequestMsg "Invalid data provided"))
    ∧ (∀ competition club, findClub st kn = some club →
        findCompetition st cn = some competition →
        (book st cn kn now = .failure .badRequestDefault ↔ competition.date < now)
        ∧ (book st cn kn now = .success ↔ now ≤ competition.date)) := by
  constructor
  · intro h
    cases hk : findClub st kn with
    | none => exact book_club_none st cn kn now hk
    | some club =>
      rcases h with h | h
      · rw [hk] at h
        exact absurd h (by simp)
      · exact book_comp_none st cn kn now club hk h
  · intro competition club hk hc
    by_cases hd : competition.date < now
    · rw [book_expired st cn kn now club competition hk hc hd]
      refine ⟨iff_of_true rfl hd, ?_, ?_⟩
      · intro hx
        exact absurd hx (by simp)
      · intro hx
        exact absurd hx (by omega)
    · rw [book_ok st cn kn now club competition hk hc hd]
      push_neg at hd
      refine ⟨⟨?_, ?_⟩, iff_of_true rfl hd⟩
      · intro hx
        exact absurd hx (by simp)
      · intro hx
        exact absurd hx (by omega)

/-- C8 witness: at time 90 the competition dated 100 is bookable (not
Expired) and an unknown competition name yields the NotFound value. -/
theorem book_eligibility_contract_witness :
    (book stFresh "CompX" "ClubA" 90 = .failure .badRequestDefault ↔ compX.date < 90)
    ∧ (book stFresh "CompX" "ClubA" 90 = .success ↔ (90:Int) ≤ compX.date)
    ∧ book stFresh "Nope" "ClubA" 90 = .failure (.badRequestMsg "Invalid data provided") := by
  have h1 := (book_eligibility_contract stFresh "CompX" "ClubA" 90).2 compX clubA
    (by decide) (by decide)
  have h2 := (book_eligibility_contract stFresh "Nope" "ClubA" 90).1 (Or.inr (by decide))
  exact ⟨h1.1, h1.2, h2⟩

/-- C9 counterexample: two distinct error conditions of the purchase
path — an unknown club name (the NotFound condition) and a request of
14 places against 13 points (an InvalidBooking condition) — produce the
identical observable result value, BadRequest with the message Invalid
data provided., so the caller cannot tell them apart. -/
theorem notfound_invalidbooking_same_value :
    findClub stFresh "Ghost" = none
    ∧ findCompetition stFresh "CompX" = some compX
    ∧ findClub stFresh "ClubA" = some clubA
    ∧ (purchase_places stFresh "CompX" "Ghost" 1).1
        = .failure (.badRequestMsg "Invalid data provided.")
    ∧ (purchase_places stFresh "CompX" "ClubA" 14).1 ≠ .success
    ∧ (purchase_places stFresh "CompX" "Ghost" 1).1
        = (purchase_places stFresh "CompX" "ClubA" 14).1 := by decide

/-- C9 (amended): the Expired value (a bare BadRequest) is
distinguishable from every value the purchase path can produce and from
the book-path NotFound value, and the book path never produces a
TypeError; but on the purchase path an unknown club (NotFound) and a
validation violation (InvalidBooking) both produce the identical
BadRequest value with the message Invalid data provided., and an
unknown competition name produces an uncaught TypeError instead of the
NotFound value. -/
theorem error_values_partially_distinguishable
    (st : AppState) (cn kn : String) (now : Int)
    (competition : Competition) (club : Club)
    (hc : findCompetition st cn = some competition)
    (hk : findClub st kn = some club)
    (hd : competition.date < now) :
    book st cn kn now = .failure .badRequestDefault
    ∧ (∀ st2 cn2 kn2 r2,
        (purchase_places st2 cn2 kn2 r2).1 ≠ .failure .badRequestDefault)
    ∧ (∀ st2 cn2 kn2 now2, book st2 cn2 kn2 now2 ≠ .failure .typeError)
    ∧ (∀ st2 cn2 kn2 r2 c2, findCompetition st2 cn2 = some c2 →
        findClub st2 kn2 = none →
        (purchase_places st2 cn2 kn2 r2).1
          = .failure (.badRequestMsg "Invalid data provided."))
    ∧ (∀ st2 cn2 kn2 r2, (purchase_places st2 cn2 kn2 r2).1 ≠ .success →
        (purchase_places st2 cn2 kn2 r2).1 = .failure .typeError
        ∨ (purchase_places st2 cn2 kn2 r2).1
            = .failure (.badRequestMsg "Invalid data provided.")) := by
  refine ⟨book_expired st cn kn now club competition hk hc hd, ?_, ?_, ?_, ?_⟩
  · intro st2 cn2 kn2 r2 hx
    rcases purchase_outcome_cases st2 cn2 kn2 r2 with h | h | h <;>
      rw [h] at hx <;> simp at hx
  · intro st2 cn2 kn2 now2 hx
    rcases book_outcome_cases st2 cn2 kn2 now2 with h | h | h <;>
      rw [h] at hx <;> simp at hx
  · intro st2 cn2 kn2 r2 c2 hc2 hk2
    rw [purchase_places_club_none st2 cn2 kn2 r2 c2 hc2 hk2]
  · intro st2 cn2 kn2 r2 hx
    rcases purchase_outcome_cases st2 cn2 kn2 r2 with h | h | h
    · exact absurd h hx
    · exact Or.inl h
    · exact Or.inr h

/-- C9 witness: at time 200 the expired book check yields the bare
BadRequest, which differs from the conflated purchase error value that
an unknown club produces. -/
theorem error_values_partially_distinguishable_witness :
    book stFresh "CompX" "ClubA" 200 = .failure .badRequestDefault
    ∧ (purchase_places stFresh "CompX" "Ghost" 1).1 ≠ .failure .badRequestDefault
    ∧ (purchase_places stFresh "CompX" "Ghost" 1).1
        = .failure (.badRequestMsg "Invalid data provided.") := by
  have h := error_values_partially_distinguishable stFresh "CompX" "ClubA" 200 compX clubA
    (by decide) (by decide) (by decide)
  exact ⟨h.1, h.2.1 stFresh "CompX" "Ghost" 1,
    h.2.2.2.1 stFresh "CompX" "Ghost" 1 compX (by decide) (by decide)⟩

/-- C10 counterexample: with points 0, places 0 and a ledger entry of 13
— a state satisfying every hypothesis the claim states (points >= 0,
numberOfPlaces >= 0, ledger entry >= 0) — the request of 0 places, which
is <= 0, is rejected with InvalidBooking instead of being accepted,
because 13 + 0 > 12 violates the cumulative ceiling. -/
theorem nonpositive_request_rejected_over_ceiling :
    findCompetition stOver "CompX" = some compZ
    ∧ findClub stOver "ClubA" = some clubZ
    ∧ (0:Int) ≤ clubZ.points
    ∧ (0:Int) ≤ compZ.numberOfPlaces
    ∧ (0:Int) ≤ priorBooking compZ "ClubA"
    ∧ (purchase_places stOver "CompX" "ClubA" 0).1 ≠ .success
    ∧ (purchase_places stOver "CompX" "ClubA" 0).1
        = .failure (.badRequestMsg "Invalid data provided.") := by decide

/-- C10 (amended): for every resolved club and competition with
points >= 0, numberOfPlaces >= 0, ledger entry >= 0 and additionally
ledger entry <= 12, every request of at most 0 places passes all four
validations and is applied: the ledger entry has the request added
(decreasing it when negative), the points and the places have it
subtracted (increasing both when negative); no lower bound on the
request is enforced anywhere. -/
theorem purchase_accepts_nonpositive_requests (st : AppState) (cn kn : String) (r : Int)
    (competition : Competition) (club : Club)
    (hc : findCompetition st cn = some competition)
    (hk : findClub st kn = some club)
    (hr : r ≤ 0) (hp : 0 ≤ club.points) (hpl : 0 ≤ competition.numberOfPlaces)
    (hl0 : 0 ≤ priorBooking competition kn) (hl : priorBooking competition kn ≤ 12) :
    (purchase_places st cn kn r).1 = .success
    ∧ getLedgerD (purchase_places st cn kn r).2 cn kn = priorBooking competition kn + r
    ∧ clubPoints (purchase_places st cn kn r).2 kn = some (club.points - r)
    ∧ compPlaces (purchase_places st cn kn r).2 cn = some (competition.numberOfPlaces - r) := by
  have a3 : r ≤ 12 := by omega
  have a1 : r ≤ club.points := by omega
  have a2 : r ≤ competition.numberOfPlaces := by omega
  have a4 : priorBooking competition kn + r ≤ 12 := by omega
  rw [purchase_places_valid st cn kn r competition club hc hk a3 a1 a2 a4]
  exact ⟨rfl, getLedgerD_applyPurchase_self st cn kn r competition hc,
    clubPoints_applyPurchase_self st cn kn r club hk,
    compPlaces_applyPurchase_self st cn kn r competition hc⟩

/-- C10 witness: requesting -3 places against ledger 5, points 15,
places 25 succeeds and moves the ledger to 2, the points to 18 and the
places to 28. -/
theorem purchase_accepts_nonpositive_requests_witness :
    (purchase_places stLedger "CompX" "ClubA" (-3)).1 = .success
    ∧ getLedgerD (purchase_places stLedger "CompX" "ClubA" (-3)).2 "CompX" "ClubA" = 2
    ∧ clubPoints (purchase_places stLedger "CompX" "ClubA" (-3)).2 "ClubA" = some 18
    ∧ compPlaces (purchase_places stLedger "CompX" "ClubA" (-3)).2 "CompX" = some 28 := by
  have h := purchase_accepts_nonpositive_requests stLedger "CompX" "ClubA" (-3) compY clubB
    (by decide) (by decide) (by decide) (by decide) (by decide) (by decide) (by decide)
  refine ⟨h.1, ?_, ?_, ?_⟩
  · rw [h.2.1]
    decide
  · rw [h.2.2.1]
    decide
  · rw [h.2.2.2]
    decide

end Booking
